import Mathlib

/-!
Shallow embedding of the bgp-rs BGP message codec (the crate rooted at
src/lib.rs, with modules src/attributes.rs, src/flowspec.rs, src/util.rs,
plus the revised modules src/notification.rs and src/update/ that ship in
the same tree).

Byte streams are lists of naturals (each < 256 on real inputs).  A parser
takes the remaining stream and yields either a value together with the
unconsumed suffix, a typed io error together with the stream position at
which reading stopped, or a crash.  The crash outcome models a Rust panic:
an arithmetic underflow of an unsigned subtraction (checked in debug
builds), an out-of-bounds slice index, or an unimplemented branch.
Panics unwind, so a crash is never swallowed by the error-recovery loops
that catch io errors.
-/

/-- Error kinds carried by std io errors in the source: UnexpectedEof,
ErrorKind::Other and ErrorKind::InvalidData. -/
inductive PErr : Type where
  | eof : PErr
  | other : PErr
  | invalidData : PErr
deriving DecidableEq, Repr

/-- Outcome of running a parser: success with the remaining stream, a typed
error with the remaining stream (the loops in the source resume there), or
a crash (Rust panic). -/
inductive PRes (α : Type) : Type where
  | ok : α → List Nat → PRes α
  | err : PErr → List Nat → PRes α
  | crash : PRes α
deriving DecidableEq, Repr

/-- The parse monad: a state-passing function over the remaining stream. -/
def PM (α : Type) : Type := List Nat → PRes α

instance : Monad PM where
  pure a := fun s => .ok a s
  bind x f := fun s =>
    match x s with
    | .ok a s' => f a s'
    | .err e s' => .err e s'
    | .crash => .crash

/-- Raise a typed io error at the current position. -/
def perr {α : Type} (e : PErr) : PM α := fun s => .err e s

/-- Crash: models a Rust panic (arithmetic underflow in debug builds,
slice index out of bounds, unimplemented branches). -/
def pcrash {α : Type} : PM α := fun _ => .crash

/-- read_exact into an n-byte buffer: consumes n bytes, or consumes
everything and fails with UnexpectedEof when fewer are available. -/
def rexact (n : Nat) : PM (List Nat) := fun s =>
  if n ≤ s.length then .ok (s.take n) (s.drop n) else .err .eof []

/-- Big-endian value of a byte list. -/
def beVal (l : List Nat) : Nat := l.foldl (fun a b => a * 256 + b) 0

/-- read_u8. -/
def ru8 : PM Nat := fun s =>
  match s with
  | [] => .err .eof []
  | b :: rest => .ok b rest

/-- read_u16 big-endian. -/
def ru16 : PM Nat := do return beVal (← rexact 2)

/-- read_u24 big-endian. -/
def ru24 : PM Nat := do return beVal (← rexact 3)

/-- read_u32 big-endian. -/
def ru32 : PM Nat := do return beVal (← rexact 4)

/-- read_u64 big-endian. -/
def ru64 : PM Nat := do return beVal (← rexact 8)

/-- read_u128 big-endian. -/
def ru128 : PM Nat := do return beVal (← rexact 16)

/-- Rust unsigned subtraction a - b: underflow is a panic (debug builds
abort; in release the wrapped value feeds an allocation or read that
aborts or fails).  Modelled as a crash. -/
def subChk (a b : Nat) : PM Nat :=
  if a < b then pcrash else pure (a - b)

/-- Big-endian bytes of a 16-bit value. -/
def be16 (v : Nat) : List Nat := [v / 256 % 256, v % 256]

/-- Big-endian bytes of a 32-bit value. -/
def be32 (v : Nat) : List Nat :=
  [v / 16777216 % 256, v / 65536 % 256, v / 256 % 256, v % 256]

/-!  ## Address families (src/lib.rs) -/

/-- AFI enum: IPV4 = 1, IPV6 = 2, L2VPN = 25 (src/lib.rs). -/
inductive AFI : Type where
  | IPV4 : AFI
  | IPV6 : AFI
  | L2VPN : AFI
deriving DecidableEq, Repr

/-- TryFrom of u16 for AFI (src/lib.rs): 1, 2, 25 succeed, everything
else is an ErrorKind::Other error. -/
def afiTryFrom (v : Nat) : PM AFI :=
  if v = 1 then pure .IPV4
  else if v = 2 then pure .IPV6
  else if v = 25 then pure .L2VPN
  else perr .other

/-- AFI::empty_buffer (src/lib.rs): 4 zero bytes for IPv4, 16 for IPv6,
unimplemented (panic) for L2VPN. -/
def emptyBuffer : AFI → PM (List Nat)
  | .IPV4 => pure (List.replicate 4 0)
  | .IPV6 => pure (List.replicate 16 0)
  | .L2VPN => pcrash

/-- SAFI enum of src/lib.rs: Unicast = 1, Multicast = 2, Mpls = 4,
MplsVpn = 128, Flowspec = 133, FlowspecVPN = 134. -/
inductive SAFI : Type where
  | Unicast : SAFI
  | Multicast : SAFI
  | Mpls : SAFI
  | MplsVpn : SAFI
  | Flowspec : SAFI
  | FlowspecVPN : SAFI
deriving DecidableEq, Repr

/-- TryFrom of u8 for SAFI, src/lib.rs lines 154-171: exactly the codes
1, 2, 4, 128, 133 and 134 convert; every other byte is an
ErrorKind::Other error. -/
def safiTryFrom (v : Nat) : Except PErr SAFI :=
  if v = 1 then .ok .Unicast
  else if v = 2 then .ok .Multicast
  else if v = 4 then .ok .Mpls
  else if v = 128 then .ok .MplsVpn
  else if v = 133 then .ok .Flowspec
  else if v = 134 then .ok .FlowspecVPN
  else .error .other

/-- Lift the SAFI conversion into the parse monad. -/
def safiTryFromM (v : Nat) : PM SAFI :=
  match safiTryFrom v with
  | .ok s => pure s
  | .error e => perr e

/-!  ## Header (src/lib.rs) -/

/-- BGP message header: 16 marker bytes kept verbatim, u16 length,
u8 record type. -/
structure Header : Type where
  marker : List Nat
  length : Nat
  recordType : Nat
deriving DecidableEq, Repr

/-- Header::parse (src/lib.rs lines 201-215): 16 marker bytes verbatim
(no validation), big-endian u16 length, u8 type. -/
def headerParse : PM Header := do
  let m ← rexact 16
  let len ← ru16
  let ty ← ru8
  return ⟨m, len, ty⟩

/-- Header::write (src/lib.rs lines 217-222): marker bytes verbatim, then
the length as big-endian u16, then the type byte. -/
def headerWrite (h : Header) : List Nat :=
  h.marker ++ be16 h.length ++ [h.recordType % 256]

/-!  ## Notification parsers (two revisions in the tree) -/

/-- A BGP NOTIFICATION message: major and minor error codes and the
trailing data bytes. -/
structure Notification : Type where
  majorErrCode : Nat
  minorErrCode : Nat
  data : List Nat
deriving DecidableEq, Repr

/-- Notification::parse of src/lib.rs lines 1047-1061: reads the two code
bytes, then unconditionally computes header.length - 21 (usize
subtraction: underflow for a length below 21) and reads that many data
bytes. -/
def notifLibParse (header : Header) : PM Notification := do
  let ma ← ru8
  let mi ← ru8
  let remaining ← subChk header.length 21
  let data ← rexact remaining
  return ⟨ma, mi, data⟩

/-- Notification::parse of src/notification.rs lines 47-64: reads the two
code bytes; only when header.length > 21 does it compute
header.length - 21 and read that many data bytes, otherwise the data
vector is empty. -/
def notifModParse (header : Header) : PM Notification := do
  let ma ← ru8
  let mi ← ru8
  if header.length > 21 then
    let data ← rexact (header.length - 21)
    return ⟨ma, mi, data⟩
  else
    return ⟨ma, mi, []⟩

/-!  ## Theorems for claims C7, C8, C10 -/

/-- C7: the claim lists twelve accepted SAFI codes including VPLS = 65,
but the conversion in src/lib.rs lines 154-171 rejects 65 with an error
(the enum has no VPLS variant at all). -/
theorem c7_counterexample : safiTryFrom 65 = Except.error PErr.other := by
  rfl

/-- C7 (amended): the SAFI conversion from a wire byte succeeds exactly
for the six codes Unicast=1, Multicast=2, MPLS=4, MPLS_VPN=128,
Flowspec=133 and Flowspec_VPN=134; every other byte value fails with an
ErrorKind::Other error (the source's unsupported-SAFI error). -/
theorem c7_theorem (b : Nat) (_hb : b < 256) :
    (safiTryFrom b).isOk = true ↔ b ∈ [1, 2, 4, 128, 133, 134] := by
  unfold safiTryFrom
  by_cases h1 : b = 1 <;> by_cases h2 : b = 2 <;> by_cases h4 : b = 4 <;>
    by_cases h128 : b = 128 <;> by_cases h133 : b = 133 <;>
    by_cases h134 : b = 134 <;>
  simp_all [Except.isOk, Except.toBool]

/-- C7 witness: the theorem applied at byte 1. -/
theorem c7_witness :
    (1 : Nat) < 256 ∧ ((safiTryFrom 1).isOk = true ↔ 1 ∈ [1, 2, 4, 128, 133, 134]) :=
  ⟨by decide, c7_theorem 1 (by decide)⟩

/-- C8: for every 19-byte input (16 arbitrary marker bytes, a big-endian
u16 length with 19 ≤ length ≤ 4096 and an arbitrary type byte),
Header::parse captures the fields verbatim and Header::write reproduces
the input byte-for-byte. -/
theorem c8_theorem (mk : List Nat) (h l t : Nat)
    (hmk : mk.length = 16) (_hh : h < 256) (hl : l < 256) (ht : t < 256)
    (hlo : 19 ≤ h * 256 + l) (hhi : h * 256 + l ≤ 4096) :
    headerParse (mk ++ [h, l, t]) = .ok ⟨mk, h * 256 + l, t⟩ [] ∧
    headerWrite ⟨mk, h * 256 + l, t⟩ = mk ++ [h, l, t] := by
  constructor
  · show (do
      let m ← rexact 16
      let len ← ru16
      let ty ← ru8
      return (⟨m, len, ty⟩ : Header)) (mk ++ [h, l, t]) = _
    have htake : (mk ++ [h, l, t]).take 16 = mk := by
      rw [← hmk]; exact List.take_left mk [h, l, t]
    have hdrop : (mk ++ [h, l, t]).drop 16 = [h, l, t] := by
      rw [← hmk]; exact List.drop_left mk [h, l, t]
    have hlen : 16 ≤ (mk ++ [h, l, t]).length := by
      simp [List.length_append, hmk]
    simp only [Bind.bind, Monad.toBind, instMonadPM, rexact, ru16, ru8,
      if_pos hlen, htake, hdrop]
    simp [beVal, Pure.pure]
  · unfold headerWrite be16
    have h1 : (h * 256 + l) / 256 % 256 = h := by omega
    have h2 : (h * 256 + l) % 256 = l := by omega
    simp [h1, h2, Nat.mod_eq_of_lt ht]

/-- C8 witness: the theorem applied at the all-ones marker, length 19,
type 4 (a KEEPALIVE header). -/
theorem c8_witness :
    (List.replicate 16 255).length = 16 ∧
    headerParse (List.replicate 16 255 ++ [0, 19, 4]) =
      .ok ⟨List.replicate 16 255, 19, 4⟩ [] := by
  refine ⟨by decide, ?_⟩
  have h := c8_theorem (List.replicate 16 255) 0 19 4 (by decide) (by decide)
    (by decide) (by decide) (by decide) (by decide)
  simpa using h.1

/-- C10: for a header whose length field is at most 21 and a stream with
at least two bytes, Notification::parse in src/notification.rs reads
exactly the two error-code bytes and returns Ok with an empty data
vector; header.length - 21 is never computed, so a NOTIFICATION shorter
than the nominal 21-byte minimum is accepted. -/
theorem c10_theorem (header : Header) (s : List Nat)
    (hlen : header.length ≤ 21) (hs : 2 ≤ s.length) :
    notifModParse header s =
      .ok ⟨s.getD 0 0, s.getD 1 0, []⟩ (s.drop 2) := by
  match s, hs with
  | a :: b :: rest, _ =>
    show (do
      let ma ← ru8
      let mi ← ru8
      if header.length > 21 then
        let data ← rexact (header.length - 21)
        return (⟨ma, mi, data⟩ : Notification)
      else
        return ⟨ma, mi, []⟩) (a :: b :: rest) = _
    have : ¬ header.length > 21 := by omega
    simp only [Bind.bind, Monad.toBind, instMonadPM, ru8, if_neg this]
    simp [Pure.pure]

/-- C10 witness: the theorem applied at a header of length 20 and the
two-byte stream [6, 3]. -/
theorem c10_witness :
    (⟨List.replicate 16 255, 20, 3⟩ : Header).length ≤ 21 ∧
    2 ≤ ([6, 3] : List Nat).length ∧
    notifModParse ⟨List.replicate 16 255, 20, 3⟩ [6, 3] = .ok ⟨6, 3, []⟩ [] :=
  ⟨by decide, by decide,
    c10_theorem ⟨List.replicate 16 255, 20, 3⟩ [6, 3] (by decide) (by decide)⟩

/-!  ## ADD-PATH detection heuristic (src/util.rs)

The source walks the cursor's buffer twice.  The first loop assumes every
record carries a 4-byte path identifier in front of the prefix; any
structural failure makes the function restore the cursor and return
false.  The second loop assumes plain prefixes; any structural failure
makes it restore the cursor and return true.  Falling out of both loops
restores the cursor and returns false.

Positions are represented by list suffixes: a loop at absolute position
i over a block reads the head of block.drop i.  Both loops advance the
position by at least one byte per iteration, so a fuel of block length
plus one bounds the iteration count; the fuel-zero value is never
reached by the wrappers below.  Every read in the source is at a
position strictly below the buffer end, so the loops never hit
UnexpectedEof and are total. -/

/-- First loop of detect_add_path_prefix (src/util.rs lines 14-44),
starting after the assumed 4-byte path id.  Returns false when the
path-id walk fails (an early `return Ok(false)` in the source) and true
when the loop runs off the end of the block. -/
def pathIdPass (fuel maxBit : Nat) (s : List Nat) : Bool :=
  match fuel, s with
  | _, [] => true
  | 0, _ :: _ => true
  | fuel + 1, len :: rest =>
    if len > maxBit then false
    else
      let addrLen := (len + 7) / 8
      if rest.length < addrLen then false
      else if len % 8 > 0 ∧ (rest.getD (addrLen - 1) 0) &&& (255 >>> (len % 8)) > 0 then
        false
      else pathIdPass fuel maxBit (rest.drop (addrLen + 4))

/-- Second loop of detect_add_path_prefix (src/util.rs lines 47-80),
assuming plain prefixes.  Returns true when the plain walk fails (an
early `return Ok(true)` in the source) and false when the loop runs off
the end of the block. -/
def plainPass (fuel maxBit : Nat) (s : List Nat) : Bool :=
  match fuel, s with
  | _, [] => false
  | 0, _ :: _ => false
  | fuel + 1, len :: rest =>
    if len = 0 ∧ rest.length > 0 then true
    else if len > maxBit then true
    else
      let addrLen := (len + 7) / 8
      if rest.length < addrLen then true
      else if len % 8 > 0 ∧ (rest.getD (addrLen - 1) 0) &&& (255 >>> (len % 8)) > 0 then
        true
      else plainPass fuel maxBit (rest.drop addrLen)

/-- detect_add_path_prefix (src/util.rs lines 10-84).  The cursor holds
the whole vector buf with current position init; the examined block is
the suffix from init to the end.  The returned pair is the detection
verdict together with the final cursor position: the source sets the
position back to cursor_init on every return path. -/
def detectAddPath (buf : List Nat) (init maxBit : Nat) : Bool × Nat :=
  let block := buf.drop init
  if pathIdPass (block.length + 1) maxBit (block.drop 4) = false then (false, init)
  else if plainPass (block.length + 1) maxBit block then (true, init)
  else (false, init)

/-- The path-id layout walk of the claim (spec 4.7 pass B): each record
is a 4-byte path id, a length byte not exceeding the family maximum,
then ceil(length/8) prefix bytes with no bit set past the prefix length;
the records cover the block exactly. -/
inductive PathIdWalk (maxBit : Nat) : List Nat → Prop where
  | nil : PathIdWalk maxBit []
  | cons {i1 i2 i3 i4 len : Nat} {rest : List Nat} :
      len ≤ maxBit →
      (len + 7) / 8 ≤ rest.length →
      (len % 8 = 0 ∨ (rest.getD ((len + 7) / 8 - 1) 0) &&& (255 >>> (len % 8)) = 0) →
      PathIdWalk maxBit (rest.drop ((len + 7) / 8)) →
      PathIdWalk maxBit (i1 :: i2 :: i3 :: i4 :: len :: rest)

/-- The plain layout walk of the claim (spec 4.7 pass A): each record is
a length byte not exceeding the family maximum followed by
ceil(length/8) prefix bytes with no bit set past the prefix length; the
records cover the block exactly. -/
inductive PlainWalk (maxBit : Nat) : List Nat → Prop where
  | nil : PlainWalk maxBit []
  | cons {len : Nat} {rest : List Nat} :
      len ≤ maxBit →
      (len + 7) / 8 ≤ rest.length →
      (len % 8 = 0 ∨ (rest.getD ((len + 7) / 8 - 1) 0) &&& (255 >>> (len % 8)) = 0) →
      PlainWalk maxBit (rest.drop ((len + 7) / 8)) →
      PlainWalk maxBit (len :: rest)

/-- The plain walk restricted to records the detector's second loop
accepts: additionally no zero length byte may be followed by further
data (the source treats that as evidence of a path id). -/
inductive PlainWalkStrict (maxBit : Nat) : List Nat → Prop where
  | nil : PlainWalkStrict maxBit []
  | cons {len : Nat} {rest : List Nat} :
      (len = 0 → rest = []) →
      len ≤ maxBit →
      (len + 7) / 8 ≤ rest.length →
      (len % 8 = 0 ∨ (rest.getD ((len + 7) / 8 - 1) 0) &&& (255 >>> (len % 8)) = 0) →
      PlainWalkStrict maxBit (rest.drop ((len + 7) / 8)) →
      PlainWalkStrict maxBit (len :: rest)

theorem pathIdPass_of_walk {maxBit : Nat} {s : List Nat}
    (h : PathIdWalk maxBit s) :
    ∀ fuel, (s.drop 4).length < fuel → pathIdPass fuel maxBit (s.drop 4) = true := by
  induction h with
  | nil =>
    intro fuel _
    cases fuel <;> simp [pathIdPass]
  | @cons i1 i2 i3 i4 len rest hmax hfit hbits _ ih =>
    intro fuel hfuel
    simp only [List.drop] at hfuel ⊢
    match fuel, hfuel with
    | fuel + 1, hfuel =>
      unfold pathIdPass
      rw [if_neg (by omega)]
      simp only
      rw [if_neg (by omega)]
      have hb : ¬ (len % 8 > 0 ∧
          (rest.getD ((len + 7) / 8 - 1) 0) &&& (255 >>> (len % 8)) > 0) := by
        rcases hbits with h0 | h0 <;> omega
      rw [if_neg hb]
      have hdd : rest.drop ((len + 7) / 8 + 4) = ((rest.drop ((len + 7) / 8)).drop 4) := by
        rw [List.drop_drop]
      rw [hdd]
      apply ih
      have h1 : ((rest.drop ((len + 7) / 8)).drop 4).length ≤ rest.length := by
        rw [List.drop_drop, List.length_drop]; omega
      simp only [List.length_cons] at hfuel
      omega

theorem plainPass_of_walk {maxBit : Nat} {s : List Nat}
    (h : PlainWalkStrict maxBit s) :
    ∀ fuel, s.length < fuel → plainPass fuel maxBit s = false := by
  induction h with
  | nil =>
    intro fuel _
    cases fuel <;> simp [plainPass]
  | @cons len rest hz hmax hfit hbits _ ih =>
    intro fuel hfuel
    match fuel, hfuel with
    | fuel + 1, hfuel =>
      unfold plainPass
      have hz' : ¬ (len = 0 ∧ rest.length > 0) := by
        rintro ⟨h0, hlen⟩
        have := hz h0
        simp [this] at hlen
      rw [if_neg hz']
      rw [if_neg (by omega)]
      simp only
      rw [if_neg (by omega)]
      have hb : ¬ (len % 8 > 0 ∧
          (rest.getD ((len + 7) / 8 - 1) 0) &&& (255 >>> (len % 8)) > 0) := by
        rcases hbits with h0 | h0 <;> omega
      rw [if_neg hb]
      apply ih
      have : (rest.drop ((len + 7) / 8)).length ≤ rest.length := by
        rw [List.length_drop]; omega
      simp only [List.length_cons] at hfuel
      omega

/-- C5: the first two parts of the claim hold (the concrete plain block
gives false, the concrete path-id block gives true), but the third part
fails: the block 00 00 00 00 00 walks cleanly under the plain layout
(a /0 record followed by four /0 records) and under the path-id layout
(path id 00 00 00 00, then a /0 prefix), yet the detector returns true,
not false, because its plain pass treats a zero length byte with data
remaining as evidence of a path id. -/
theorem c5_counterexample :
    PlainWalk 255 [0, 0, 0, 0, 0] ∧
    PathIdWalk 255 [0, 0, 0, 0, 0] ∧
    detectAddPath [0, 0, 0, 0, 0] 0 255 = (true, 0) := by
  refine ⟨?_, ?_, by decide⟩
  · exact .cons (by decide) (by decide) (by decide)
      (.cons (by decide) (by decide) (by decide)
        (.cons (by decide) (by decide) (by decide)
          (.cons (by decide) (by decide) (by decide)
            (.cons (by decide) (by decide) (by decide) .nil))))
  · exact .cons (by decide) (by decide) (by decide) .nil

/-- C5 (amended): detect_add_path_prefix returns false on the claimed
concatenation of plain IPv4 prefixes, true on the claimed block of
path-id-prefixed records, and for every block that walks cleanly under
the path-id layout and cleanly under the plain layout with no zero
length byte followed by further data, it concludes the plain encoding
and returns false (a zero length byte with data remaining makes the
plain pass conclude ADD-PATH instead). -/
theorem c5_theorem (buf : List Nat) (init maxBit : Nat)
    (h1 : PathIdWalk maxBit (buf.drop init))
    (h2 : PlainWalkStrict maxBit (buf.drop init)) :
    detectAddPath [0x18, 0xac, 0x11, 0x02, 0x18, 0xac, 0x11, 0x01,
        0x18, 0xac, 0x11, 0x00] 0 255 = (false, 0) ∧
    detectAddPath [0x00, 0x00, 0x00, 0x01, 0x20, 0x05, 0x05, 0x05, 0x05,
        0x00, 0x00, 0x00, 0x01, 0x20, 0xc0, 0xa8, 0x01, 0x05] 0 255 = (true, 0) ∧
    detectAddPath buf init maxBit = (false, init) := by
  refine ⟨by decide, by decide, ?_⟩
  have hp := pathIdPass_of_walk h1 ((buf.drop init).length + 1)
    (by simp only [List.length_drop]; omega)
  have hq := plainPass_of_walk h2 ((buf.drop init).length + 1) (by omega)
  simp only [List.length_drop, List.drop_drop] at hp hq
  simp [detectAddPath, hp, hq]

/-- C5 witness: the theorem applied to a block that walks cleanly under
both layouts; the detector concludes the plain encoding. -/
theorem c5_witness :
    detectAddPath [24, 0, 0, 0, 8, 0, 24, 0, 0, 0, 8, 0] 0 255 = (false, 0) := by
  have h1 : PathIdWalk 255 ([24, 0, 0, 0, 8, 0, 24, 0, 0, 0, 8, 0] : List Nat) :=
    .cons (by decide) (by decide) (by decide)
      (.cons (by decide) (by decide) (by decide) .nil)
  have h2 : PlainWalkStrict 255 ([24, 0, 0, 0, 8, 0, 24, 0, 0, 0, 8, 0] : List Nat) :=
    .cons (by decide) (by decide) (by decide) (by decide)
      (.cons (by decide) (by decide) (by decide) (by decide)
        (.cons (by decide) (by decide) (by decide) (by decide)
          (.cons (by decide) (by decide) (by decide) (by decide) .nil)))
  exact (c5_theorem _ 0 255 h1 h2).2.2

/-!  ## AS_PATH segments (src/attributes.rs lines 491-628)

Segment::parse_unknown_segments reads the whole declared attribute body
into a buffer, then probes it for each assumed ASN width in the order
2-byte then 4-byte: the probe walks segment headers (type u8, count u8)
and advances count times the width; for the 2-byte width every segment
type after the first must be 1 or 2, otherwise the probe gives up on
that width.  A probe that needs a count byte past the end of the buffer
aborts the whole parse with UnexpectedEof (the source's `?`).  The first
width whose probe ends exactly at the declared length is dispatched to
the corresponding segment decoder, restarted at buffer position 0.  If
neither closes, the parse fails with the invalid-length error. -/

/-- An AS_PATH segment: AS_SET has wire type 1, AS_SEQUENCE wire type 2. -/
inductive Segment : Type where
  | AS_SEQUENCE : List Nat → Segment
  | AS_SET : List Nat → Segment
deriving DecidableEq, Repr

/-- An AS_PATH: the ordered list of its segments. -/
structure ASPath : Type where
  segments : List Segment
deriving DecidableEq, Repr

/-- Outcome of the width probe of parse_unknown_segments: the walk ends
exactly at the declared length, runs out of bytes mid-header (the
source's read_u8 fails and the whole parse errors), hits an invalid
segment type for the 2-byte width, or ends past the declared length. -/
inductive ProbeOut : Type where
  | closed : ProbeOut
  | shortHeader : ProbeOut
  | typeBad : ProbeOut
  | overshoot : ProbeOut
deriving DecidableEq, Repr

/-- The width probe (the labelled loop of src/attributes.rs lines
511-531).  Positions are list suffixes; first tracks whether no segment
header has been read yet (total_segments == 0).  Each iteration consumes
at least two bytes, so fuel of buffer length plus one is never
exhausted. -/
def probe : Nat → Nat → Bool → List Nat → ProbeOut
  | _, _, _, [] => .closed
  | _, _, _, [_] => .shortHeader
  | 0, _, _, _ :: _ :: _ => .overshoot
  | fuel + 1, width, first, t :: c :: rest =>
    if width = 2 ∧ first = false ∧ (t < 1 ∨ t > 2) then .typeBad
    else if c * width ≤ rest.length then probe fuel width false (rest.drop (c * width))
    else .overshoot

/-- Read count big-endian values of w bytes each (the per-element read
loops of parse_u16_segments / parse_u32_segments). -/
def readVals (w : Nat) : Nat → PM (List Nat)
  | 0 => pure []
  | count + 1 => do
    let v ← rexact w
    let rest ← readVals w count
    pure (beVal v :: rest)

/-- Segment::parse_u16_segments (src/attributes.rs lines 554-589): while
size is nonzero, read (type, count, count 16-bit ASNs); type 1 is
AS_SET, 2 is AS_SEQUENCE, anything else an error; then
size -= 2 + count*2 with u16 semantics (underflow panics).  Fuel bounds
the iteration count; size shrinks by at least two per iteration so the
fuel-zero branch is unreachable from the wrapper. -/
def parseU16Segs : Nat → Nat → PM (List Segment)
  | 0, _ => pcrash
  | fuel + 1, size =>
    if size = 0 then pure []
    else do
      let t ← ru8
      let c ← ru8
      let elems ← readVals 2 c
      let seg ←
        match t with
        | 1 => pure (Segment.AS_SET elems)
        | 2 => pure (Segment.AS_SEQUENCE elems)
        | _ => perr .other
      let size' ← subChk size (2 + c * 2)
      let rest ← parseU16Segs fuel size'
      pure (seg :: rest)

/-- Segment::parse_u32_segments (src/attributes.rs lines 591-627): as the
16-bit decoder but with 32-bit ASNs and a signed i32 size counter, so
the decrement size -= 2 + count*4 cannot panic and a size jumping below
zero keeps the loop running until the stream is exhausted. -/
def parseU32Segs : Nat → Int → PM (List Segment)
  | 0, _ => pcrash
  | fuel + 1, size =>
    if size = 0 then pure []
    else do
      let t ← ru8
      let c ← ru8
      let elems ← readVals 4 c
      let seg ←
        match t with
        | 1 => pure (Segment.AS_SET elems)
        | 2 => pure (Segment.AS_SEQUENCE elems)
        | _ => perr .other
      let rest ← parseU32Segs fuel (size - (2 + (c : Int) * 4))
      pure (seg :: rest)

/-- Rebase a buffer-local parse outcome onto the enclosing stream: the
enclosing stream has already consumed exactly the declared attribute
length (read_exact), so both the Ok and the Err results of the
dispatched decoder resume the enclosing parse there. -/
def remapRes {α : Type} : PRes α → List Nat → PRes α
  | .ok v _, rest => .ok v rest
  | .err e _, rest => .err e rest
  | .crash, _ => .crash

/-- Segment::parse_unknown_segments (src/attributes.rs lines 503-552). -/
def parseUnknownSegs (length : Nat) : PM (List Segment) := fun s =>
  match rexact length s with
  | .err e s' => .err e s'
  | .crash => .crash
  | .ok buf rest =>
    match probe (buf.length + 1) 2 true buf with
    | .shortHeader => .err .eof rest
    | .closed => remapRes (parseU16Segs (length + 1) length buf) rest
    | _ =>
      match probe (buf.length + 1) 4 true buf with
      | .shortHeader => .err .eof rest
      | .closed => remapRes (parseU32Segs (buf.length + 1) (Int.ofNat length) buf) rest
      | _ => .err .other rest

/-- ASPath::parse (src/attributes.rs lines 458-463): delegates to
parse_unknown_segments (the capabilities argument is ignored). -/
def asPathParse (length : Nat) : PM ASPath := fun s =>
  match parseUnknownSegs length s with
  | .ok segs rest => .ok ⟨segs⟩ rest
  | .err e rest => .err e rest
  | .crash => .crash

/-- The claim's structural walk at the 2-byte width, including the
constraint the source imposes there: after the first segment every
segment type lies in {1, 2}; headers advance count * 2 bytes and the
walk covers the buffer exactly. -/
inductive SegWalk2 : Bool → List Nat → Prop where
  | nil {first : Bool} : SegWalk2 first []
  | cons {first : Bool} {t c : Nat} {rest : List Nat} :
      (first = false → 1 ≤ t ∧ t ≤ 2) →
      c * 2 ≤ rest.length →
      SegWalk2 false (rest.drop (c * 2)) →
      SegWalk2 first (t :: c :: rest)

/-- The claim's structural walk at the 4-byte width: headers advance
count * 4 bytes and the walk covers the buffer exactly (no segment-type
constraint at this width). -/
inductive SegWalk4 : List Nat → Prop where
  | nil : SegWalk4 []
  | cons {t c : Nat} {rest : List Nat} :
      c * 4 ≤ rest.length →
      SegWalk4 (rest.drop (c * 4)) →
      SegWalk4 (t :: c :: rest)

theorem probe_of_segWalk2 {first : Bool} {s : List Nat}
    (h : SegWalk2 first s) :
    ∀ fuel, s.length < fuel → probe fuel 2 first s = .closed := by
  induction h with
  | nil =>
    intro fuel _
    cases fuel <;> simp [probe]
  | @cons first t c rest htype hfit _ ih =>
    intro fuel hfuel
    match fuel, hfuel with
    | fuel + 1, hfuel =>
      unfold probe
      have hcond : ¬ (2 = 2 ∧ first = false ∧ (t < 1 ∨ t > 2)) := by
        rintro ⟨-, hf, hbad⟩
        have := htype hf
        omega
      rw [if_neg hcond, if_pos hfit]
      apply ih
      have : (rest.drop (c * 2)).length ≤ rest.length := by
        rw [List.length_drop]; omega
      simp only [List.length_cons] at hfuel
      omega

theorem probe_of_segWalk4 {s : List Nat} (h : SegWalk4 s) :
    ∀ first fuel, s.length < fuel → probe fuel 4 first s = .closed := by
  induction h with
  | nil =>
    intro first fuel _
    cases fuel <;> simp [probe]
  | @cons t c rest hfit _ ih =>
    intro first fuel hfuel
    match fuel, hfuel with
    | fuel + 1, hfuel =>
      unfold probe
      rw [if_neg (by simp), if_pos hfit]
      apply ih
      have : (rest.drop (c * 4)).length ≤ rest.length := by
        rw [List.length_drop]; omega
      simp only [List.length_cons] at hfuel
      omega

/-- C3: the decoder prefers the 2-byte width, not the 4-byte width.  On
the buffer 02 02 00 0a 00 14 02 01 00 1e both structural walks end
exactly at the declared length 10 (2-byte: two headers; 4-byte: one
header with count 2), yet parse_unknown_segments decodes with the 2-byte
width, producing AS_SEQUENCE [10, 20], AS_SEQUENCE [30] rather than the
4-byte decoding. -/
theorem c3_counterexample :
    SegWalk2 true [2, 2, 0, 10, 0, 20, 2, 1, 0, 30] ∧
    SegWalk4 [2, 2, 0, 10, 0, 20, 2, 1, 0, 30] ∧
    parseUnknownSegs 10 [2, 2, 0, 10, 0, 20, 2, 1, 0, 30] =
      .ok [Segment.AS_SEQUENCE [10, 20], Segment.AS_SEQUENCE [30]] [] ∧
    parseUnknownSegs 10 [2, 2, 0, 10, 0, 20, 2, 1, 0, 30] ≠
      remapRes (parseU32Segs 11 (Int.ofNat 10) [2, 2, 0, 10, 0, 20, 2, 1, 0, 30]) [] := by
  refine ⟨?_, ?_, by decide, by decide⟩
  · exact .cons (by simp) (by decide) (.cons (by simp) (by decide) .nil)
  · exact .cons (by decide) .nil

/-- C3 (amended): the decoder tries the 2-byte width first.  If the
2-byte structural walk (whose segment types after the first must lie in
{1, 2}) ends exactly at the declared length, the segments are decoded
with the 2-byte width, even when the 4-byte walk also closes; the 4-byte
width is used only when the 2-byte probe neither closes nor runs out of
bytes mid-header and the 4-byte walk closes exactly; when neither probe
closes nor errors, parsing fails with the invalid-AS_PATH-length
error. -/
theorem c3_theorem (s : List Nat) (n : Nat) (hn : n ≤ s.length) :
    (SegWalk2 true (s.take n) →
      parseUnknownSegs n s = remapRes (parseU16Segs (n + 1) n (s.take n)) (s.drop n)) ∧
    (probe (n + 1) 2 true (s.take n) ≠ .closed →
      probe (n + 1) 2 true (s.take n) ≠ .shortHeader →
      SegWalk4 (s.take n) →
      parseUnknownSegs n s =
        remapRes (parseU32Segs (n + 1) (Int.ofNat n) (s.take n)) (s.drop n)) ∧
    (probe (n + 1) 2 true (s.take n) ≠ .closed →
      probe (n + 1) 2 true (s.take n) ≠ .shortHeader →
      probe (n + 1) 4 true (s.take n) ≠ .closed →
      probe (n + 1) 4 true (s.take n) ≠ .shortHeader →
      parseUnknownSegs n s = .err .other (s.drop n)) := by
  have hlen : (s.take n).length = n := by
    rw [List.length_take]; omega
  have hrex : rexact n s = .ok (s.take n) (s.drop n) := by
    unfold rexact
    rw [if_pos hn]
  refine ⟨?_, ?_, ?_⟩
  · intro h2
    have hp := probe_of_segWalk2 h2 (n + 1) (by omega)
    unfold parseUnknownSegs
    rw [hrex]
    dsimp only
    rw [hlen, hp]
  · intro hnc hns h4
    have hp := probe_of_segWalk4 h4 true (n + 1) (by omega)
    unfold parseUnknownSegs
    rw [hrex]
    dsimp only
    rw [hlen, hp]
    rcases ho : probe (n + 1) 2 true (s.take n) with _ | _ | _ | _ <;>
      simp_all
  · intro hnc hns hnc4 hns4
    unfold parseUnknownSegs
    rw [hrex]
    dsimp only
    rw [hlen]
    rcases ho : probe (n + 1) 2 true (s.take n) with _ | _ | _ | _ <;>
      rcases ho4 : probe (n + 1) 4 true (s.take n) with _ | _ | _ | _ <;>
      simp_all

/-- C3 witness: the theorem applied to a buffer that only the 4-byte walk
closes; the decoder selects the 4-byte width. -/
theorem c3_witness :
    (4 : Nat) ≤ ([2, 1, 0, 0, 253, 232, 99] : List Nat).length ∧
    parseUnknownSegs 6 [2, 1, 0, 0, 253, 232, 99] =
      .ok [Segment.AS_SEQUENCE [65000]] [99] := by
  refine ⟨by decide, ?_⟩
  have h4 : SegWalk4 (([2, 1, 0, 0, 253, 232, 99] : List Nat).take 6) :=
    .cons (by decide) .nil
  have h := (c3_theorem [2, 1, 0, 0, 253, 232, 99] 6 (by decide)).2.1
    (by decide) (by decide) h4
  rw [h]
  decide

/-- A rebased buffer-local outcome that succeeds resumes the enclosing
stream exactly at the supplied position. -/
theorem remapRes_ok_rest {α : Type} {r : PRes α} {rest0 : List Nat}
    {v : α} {rest : List Nat} (h : remapRes r rest0 = .ok v rest) :
    rest = rest0 := by
  cases r with
  | ok a r0 => simp [remapRes] at h; exact h.2.symm
  | err e r0 => simp [remapRes] at h
  | crash => simp [remapRes] at h

/-- C9: detect_add_path_prefix returns with the cursor position equal to
its position at entry on every return path (both verdicts and all early
exits restore cursor_init), and the AS_PATH width probe operates on a
buffer pre-read with exactly the declared length, restarting its cursor
at the buffer start before dispatch, so a successful
parse_unknown_segments leaves the enclosing stream exactly past the
declared attribute length. -/
theorem c9_theorem (buf : List Nat) (init maxBit n : Nat) (s : List Nat)
    (segs : List Segment) (rest : List Nat)
    (h : parseUnknownSegs n s = .ok segs rest) :
    (detectAddPath buf init maxBit).2 = init ∧ rest = s.drop n := by
  constructor
  · unfold detectAddPath
    dsimp only
    split_ifs <;> rfl
  · unfold parseUnknownSegs rexact at h
    split at h
    · simp at h
    · simp at h
    · rename_i bufv restv heq
      have hr : restv = List.drop n s := by
        by_cases hn : n ≤ s.length
        · rw [if_pos hn] at heq
          exact ((PRes.ok.injEq _ _ _ _).mp heq).2.symm
        · rw [if_neg hn] at heq
          simp at heq
      rw [← hr]
      split at h
      · simp at h
      · exact remapRes_ok_rest h
      · split at h
        · simp at h
        · exact remapRes_ok_rest h
        · simp at h

/-- C9 witness: the theorem applied to a concrete AS_PATH attribute body
of declared length 4 inside a longer stream, and an arbitrary cursor
position in an arbitrary sub-buffer. -/
theorem c9_witness :
    parseUnknownSegs 4 [2, 1, 0, 10, 99] = .ok [Segment.AS_SEQUENCE [10]] [99] ∧
    (detectAddPath [7, 7, 7] 2 32).2 = 2 ∧
    [99] = List.drop 4 [2, 1, 0, 10, 99] := by
  refine ⟨by decide, ?_, ?_⟩
  · exact (c9_theorem [7, 7, 7] 2 32 4 [2, 1, 0, 10, 99]
      [Segment.AS_SEQUENCE [10]] [99] (by decide)).1
  · exact (c9_theorem [7, 7, 7] 2 32 4 [2, 1, 0, 10, 99]
      [Segment.AS_SEQUENCE [10]] [99] (by decide)).2

/-!  ## NLRI and path-attribute data model
(src/lib.rs, src/attributes.rs, src/flowspec.rs) -/

/-- A generic route (struct Prefix in src/lib.rs): address family, mask
length in bits, and the octets (field `prefix` in the source). -/
structure Pfx : Type where
  protocol : AFI
  length : Nat
  octets : List Nat
deriving DecidableEq, Repr

/-- IpAddr: a v4 or v6 address value. -/
inductive IpAddr : Type where
  | V4 : Nat → IpAddr
  | V6 : Nat → IpAddr
deriving DecidableEq, Repr

/-- FlowspecFilter (src/flowspec.rs).  Operator bytes are kept raw (the
source wraps them in bitflags structs around the same u8). -/
inductive FlowspecFilter : Type where
  | DestinationPfx : Pfx → FlowspecFilter
  | SourcePfx : Pfx → FlowspecFilter
  | IpProtocol : List (Nat × Nat) → FlowspecFilter
  | Port : List (Nat × Nat) → FlowspecFilter
  | DestinationPort : List (Nat × Nat) → FlowspecFilter
  | SourcePort : List (Nat × Nat) → FlowspecFilter
  | IcmpType : List (Nat × Nat) → FlowspecFilter
  | IcmpCode : List (Nat × Nat) → FlowspecFilter
  | TcpFlags : List (Nat × Nat) → FlowspecFilter
  | PacketLength : List (Nat × Nat) → FlowspecFilter
  | DSCP : List (Nat × Nat) → FlowspecFilter
  | Fragment : List (Nat × Nat) → FlowspecFilter
deriving DecidableEq, Repr

/-- NLRIEncoding (src/lib.rs lines 927-951). -/
inductive NLRIEncoding : Type where
  | IP : Pfx → NLRIEncoding
  | IP_WITH_PATH_ID : Pfx × Nat → NLRIEncoding
  | IP_MPLS : Pfx × Nat → NLRIEncoding
  | IP_MPLS_WITH_PATH_ID : Pfx × Nat × Nat → NLRIEncoding
  | IP_VPN_MPLS : Nat × Pfx × Nat → NLRIEncoding
  | L2VPN : Nat × Nat × Nat × Nat × Nat → NLRIEncoding
  | FLOWSPEC : List FlowspecFilter → NLRIEncoding
deriving DecidableEq, Repr

/-- MPReachNLRI (src/attributes.rs lines 630-644). -/
structure MPReachNLRI : Type where
  afi : AFI
  safi : SAFI
  nextHop : List Nat
  announcedRoutes : List NLRIEncoding
deriving DecidableEq, Repr

/-- MPUnreachNLRI (src/attributes.rs lines 786-797). -/
structure MPUnreachNLRI : Type where
  afi : AFI
  safi : SAFI
  withdrawnRoutes : List NLRIEncoding
deriving DecidableEq, Repr

/-- Origin (src/attributes.rs lines 417-428). -/
inductive Origin : Type where
  | IGP : Origin
  | EGP : Origin
  | INCOMPLETE : Origin
deriving DecidableEq, Repr

/-- Path attribute identifiers (src/attributes.rs lines 14-51). -/
inductive Identifier : Type where
  | ORIGIN | AS_PATH | NEXT_HOP | MULTI_EXIT_DISC | LOCAL_PREF
  | ATOMIC_AGGREGATOR | AGGREGATOR | COMMUNITY | ORIGINATOR_ID
  | CLUSTER_LIST | DPA | ADVERTISER | CLUSTER_ID | MP_REACH_NLRI
  | MP_UNREACH_NLRI | EXTENDED_COMMUNITIES | AS4_PATH | AS4_AGGREGATOR
  | SSA | CONNECTOR | AS_PATHLIMIT | PMSI_TUNNEL | TUNNEL_ENCAPSULATION
  | TRAFFIC_ENGINEERING | IPV6_SPECIFIC_EXTENDED_COMMUNITY | AIGP
  | PE_DISTINGUISHER_LABELS | ENTROPY_LABEL_CAPABILITY | BGP_LS
  | LARGE_COMMUNITY | BGPSEC_PATH | BGP_PREFIX_SID | ATTR_SET
deriving DecidableEq, Repr

/-- PathAttribute (src/attributes.rs lines 53-161). -/
inductive PathAttribute : Type where
  | ORIGIN : Origin → PathAttribute
  | AS_PATH : ASPath → PathAttribute
  | NEXT_HOP : IpAddr → PathAttribute
  | MULTI_EXIT_DISC : Nat → PathAttribute
  | LOCAL_PREF : Nat → PathAttribute
  | ATOMIC_AGGREGATOR : PathAttribute
  | AGGREGATOR : Nat × Nat → PathAttribute
  | COMMUNITY : List Nat → PathAttribute
  | ORIGINATOR_ID : Nat → PathAttribute
  | CLUSTER_LIST : List Nat → PathAttribute
  | DPA : Nat × Nat → PathAttribute
  | ADVERTISER : PathAttribute
  | CLUSTER_ID : PathAttribute
  | MP_REACH_NLRI : MPReachNLRI → PathAttribute
  | MP_UNREACH_NLRI : MPUnreachNLRI → PathAttribute
  | EXTENDED_COMMUNITIES : List Nat → PathAttribute
  | AS4_PATH : ASPath → PathAttribute
  | AS4_AGGREGATOR : Nat × Nat → PathAttribute
  | SSA : PathAttribute
  | CONNECTOR : Nat → PathAttribute
  | AS_PATHLIMIT : Nat × Nat → PathAttribute
  | PMSI_TUNNEL : Nat × Nat × List Nat → PathAttribute
  | TUNNEL_ENCAPSULATION : Nat × List Nat → PathAttribute
  | TRAFFIC_ENGINEERING : PathAttribute
  | IPV6_SPECIFIC_EXTENDED_COMMUNITY : Nat × Nat × Nat × Nat → PathAttribute
  | AIGP : Nat × List Nat → PathAttribute
  | PE_DISTINGUISHER_LABELS : PathAttribute
  | ENTROPY_LABEL_CAPABILITY : PathAttribute
  | BGP_LS : PathAttribute
  | LARGE_COMMUNITY : List (Nat × Nat × Nat) → PathAttribute
  | BGPSEC_PATH : PathAttribute
  | BGP_PREFIX_SID : PathAttribute
  | ATTR_SET : Nat × List PathAttribute → PathAttribute

/-- PathAttribute::id (src/attributes.rs lines 375-414). -/
def attrId : PathAttribute → Identifier
  | .ORIGIN _ => .ORIGIN
  | .AS_PATH _ => .AS_PATH
  | .NEXT_HOP _ => .NEXT_HOP
  | .MULTI_EXIT_DISC _ => .MULTI_EXIT_DISC
  | .LOCAL_PREF _ => .LOCAL_PREF
  | .ATOMIC_AGGREGATOR => .ATOMIC_AGGREGATOR
  | .AGGREGATOR _ => .AGGREGATOR
  | .COMMUNITY _ => .COMMUNITY
  | .ORIGINATOR_ID _ => .ORIGINATOR_ID
  | .CLUSTER_LIST _ => .CLUSTER_LIST
  | .DPA _ => .DPA
  | .ADVERTISER => .ADVERTISER
  | .CLUSTER_ID => .CLUSTER_ID
  | .MP_REACH_NLRI _ => .MP_REACH_NLRI
  | .MP_UNREACH_NLRI _ => .MP_UNREACH_NLRI
  | .EXTENDED_COMMUNITIES _ => .EXTENDED_COMMUNITIES
  | .AS4_PATH _ => .AS4_PATH
  | .AS4_AGGREGATOR _ => .AS4_AGGREGATOR
  | .SSA => .SSA
  | .CONNECTOR _ => .CONNECTOR
  | .AS_PATHLIMIT _ => .AS_PATHLIMIT
  | .PMSI_TUNNEL _ => .PMSI_TUNNEL
  | .TUNNEL_ENCAPSULATION _ => .TUNNEL_ENCAPSULATION
  | .TRAFFIC_ENGINEERING => .TRAFFIC_ENGINEERING
  | .IPV6_SPECIFIC_EXTENDED_COMMUNITY _ => .IPV6_SPECIFIC_EXTENDED_COMMUNITY
  | .AIGP _ => .AIGP
  | .PE_DISTINGUISHER_LABELS => .PE_DISTINGUISHER_LABELS
  | .ENTROPY_LABEL_CAPABILITY => .ENTROPY_LABEL_CAPABILITY
  | .BGP_LS => .BGP_LS
  | .LARGE_COMMUNITY _ => .LARGE_COMMUNITY
  | .BGPSEC_PATH => .BGPSEC_PATH
  | .BGP_PREFIX_SID => .BGP_PREFIX_SID
  | .ATTR_SET _ => .ATTR_SET

/-- Prefix::parse (src/lib.rs lines 1009-1033): a length byte checked
against the family maximum (32 for IPv4, 128 for IPv6, unimplemented for
L2VPN), then ceil(length/8) octets. -/
def pfxParse (protocol : AFI) : PM Pfx := do
  let length ← ru8
  let maxLen ←
    match protocol with
    | .IPV4 => pure 32
    | .IPV6 => pure 128
    | .L2VPN => pcrash
  if length > maxLen then perr .other
  else do
    let bytes ← rexact ((length + 7) / 8)
    return ⟨protocol, length, bytes⟩

/-- Origin::parse (src/attributes.rs lines 430-439). -/
def originParse : PM Origin := do
  let b ← ru8
  match b with
  | 0 => pure .IGP
  | 1 => pure .EGP
  | 2 => pure .INCOMPLETE
  | _ => perr .other

/-!  ## Flowspec filters (src/flowspec.rs) -/

/-- Variable-width operator/value list (src/flowspec.rs lines 142-157):
read an operator byte, a value of 1, 2 or 4 bytes selected by operator
bits 4-5 (an 8-byte selector hits unreachable! and panics), until the
end-of-list bit 7 is set.  Each iteration consumes at least two bytes,
bounding the loop by the stream length. -/
def opValuesVar : Nat → PM (List (Nat × Nat))
  | 0 => pcrash
  | fuel + 1 => do
    let op ← ru8
    let v ←
      match 1 <<< ((op &&& 48) >>> 4) with
      | 1 => ru8
      | 2 => ru16
      | 4 => ru32
      | _ => pcrash
    if op &&& 128 ≠ 0 then pure [(op, v)]
    else do
      let rest ← opValuesVar fuel
      pure ((op, v) :: rest)

/-- Single-byte operator/value list (src/flowspec.rs lines 176-185). -/
def opValuesOne : Nat → PM (List (Nat × Nat))
  | 0 => pcrash
  | fuel + 1 => do
    let op ← ru8
    let v ← ru8
    if op &&& 128 ≠ 0 then pure [(op, v)]
    else do
      let rest ← opValuesOne fuel
      pure ((op, v) :: rest)

/-- FlowspecFilter::parse (src/flowspec.rs lines 117-205).  The match on
the filter type mirrors the source's ranges 1|2, 3..=6|9..=10,
7..=8|11..=12; inside each range the final catch-all is pinned by the
range guard (10 for PacketLength, 12 for Fragment). -/
def flowspecFilterParse (fuel : Nat) (afi : AFI) : PM FlowspecFilter := do
  let ft ← ru8
  if ft = 1 ∨ ft = 2 then do
    let plen ← ru8
    let octets ←
      match afi with
      | .IPV6 => do
        let _offset ← ru8
        pure ((plen + 7) / 8)
      | .IPV4 => pure 4
      | .L2VPN => pcrash
    let buf ← rexact octets
    if ft = 1 then pure (.DestinationPfx ⟨afi, plen, buf⟩)
    else pure (.SourcePfx ⟨afi, plen, buf⟩)
  else if ft = 3 ∨ ft = 4 ∨ ft = 5 ∨ ft = 6 ∨ ft = 9 ∨ ft = 10 then do
    let vals ← opValuesVar fuel
    match ft with
    | 3 => pure (.IpProtocol vals)
    | 4 => pure (.Port vals)
    | 5 => pure (.DestinationPort vals)
    | 6 => pure (.SourcePort vals)
    | 9 => pure (.TcpFlags vals)
    | _ => pure (.PacketLength vals)
  else if ft = 7 ∨ ft = 8 ∨ ft = 11 ∨ ft = 12 then do
    let vals ← opValuesOne fuel
    match ft with
    | 7 => pure (.IcmpType vals)
    | 8 => pure (.IcmpCode vals)
    | 11 => pure (.DSCP vals)
    | _ => pure (.Fragment vals)
  else perr .other

/-!  ## Multiprotocol NLRI attributes (src/attributes.rs lines 630-900) -/

/-- detect_add_path_prefix called on the current cursor: the cursor
position is restored, so the stream is unchanged. -/
def detectHere (maxBit : Nat) : PM Bool := fun s =>
  .ok (detectAddPath s 0 maxBit).1 s

/-- Run a parser over a pre-read bounded sub-buffer; its Ok and Err
outcomes resume the enclosing stream after the buffer (read_exact has
already consumed it). -/
def onBuf {α : Type} (p : PM α) (buffer : List Nat) : PM α := fun s =>
  remapRes (p buffer) s

/-- One labelled-prefix record: length bits, 3 discarded label bytes,
then len_bytes - 3 prefix octets copied into the family's zero buffer
(slice panic when they exceed it); prefix length is len_bits - 24
(u8 underflow panics).  Shared by the MPLS arms of MP_REACH
(src/attributes.rs lines 674-708) and MP_UNREACH (lines 825-852). -/
def mplsRecord (afi : AFI) : PM (Nat × Pfx) := do
  let lenBits ← ru8
  if lenBits = 0 then perr .other
  else do
    let lenBytes := (lenBits + 7) / 8
    let _label ← rexact 3
    let remaining ← subChk lenBytes 3
    let zeroBuf ← emptyBuffer afi
    if zeroBuf.length < remaining then pcrash
    else do
      let bytes ← rexact remaining
      let pfxLen ← subChk lenBits 24
      return (lenBits, ⟨afi, pfxLen, bytes ++ List.replicate (zeroBuf.length - remaining) 0⟩)

/-- One VPN labelled-prefix record (MplsVpn arms, src/attributes.rs lines
710-726 and 853-874): as mplsRecord but with an 8-byte route
distinguisher after the label bytes; remaining - 8 octets are read and
the prefix length is len_bits - 24 - 64 (either subtraction panics on
underflow). -/
def mplsVpnRecord (afi : AFI) : PM (Nat × Pfx) := do
  let lenBits ← ru8
  let lenBytes := (lenBits + 7) / 8
  let _label ← rexact 3
  let remaining ← subChk lenBytes 3
  let rd ← ru64
  let zeroBuf ← emptyBuffer afi
  let rem8 ← subChk remaining 8
  if zeroBuf.length < rem8 then pcrash
  else do
    let bytes ← rexact rem8
    let t ← subChk lenBits 24
    let pfxLen ← subChk t 64
    return (rd, ⟨afi, pfxLen, bytes ++ List.replicate (zeroBuf.length - rem8) 0⟩)

/-- The flowspec NLRI inner loop (src/attributes.rs lines 729-735): parse
filters until the declared flowspec NLRI length is used up; the consumed
byte count is truncated to u8 before the subtraction (which panics on
underflow). -/
def flowspecListLoop : Nat → AFI → Nat → PM (List FlowspecFilter)
  | 0, _, _ => pcrash
  | fuel + 1, afi, nlen =>
    if nlen = 0 then pure []
    else fun s =>
      match flowspecFilterParse fuel afi s with
      | .err e s' => .err e s'
      | .crash => .crash
      | .ok f s' =>
        (do
          let nlen' ← subChk nlen ((s.length - s'.length) % 256)
          let rest ← flowspecListLoop fuel afi nlen'
          pure (f :: rest)) s'

/-- The MP_REACH_NLRI route loop for IPv4/IPv6 (src/attributes.rs lines
668-757), iterated until the bounded sub-buffer is exhausted. -/
def mpReachLoop : Nat → AFI → SAFI → PM (List NLRIEncoding)
  | 0, _, _ => pcrash
  | fuel + 1, afi, safi => fun s =>
    match s with
    | [] => .ok [] []
    | _ :: _ =>
      (do
        let route ←
          match safi with
          | .Mpls => do
            let isAP ← detectHere 255
            let pathId ← if isAP then do pure (some (← ru32)) else pure none
            let (_, p) ← mplsRecord afi
            match pathId with
            | some pid => pure (NLRIEncoding.IP_MPLS_WITH_PATH_ID (p, 0, pid))
            | none => pure (NLRIEncoding.IP_MPLS (p, 0))
          | .MplsVpn => do
            let (rd, p) ← mplsVpnRecord afi
            pure (NLRIEncoding.IP_VPN_MPLS (rd, p, 0))
          | .Flowspec => do
            let nlen ← ru8
            let filters ← fun s' => flowspecListLoop (s'.length + 1) afi nlen s'
            pure (NLRIEncoding.FLOWSPEC filters)
          | _ => do
            let isAP ← detectHere 255
            let pathId ← if isAP then do pure (some (← ru32)) else pure none
            match pathId with
            | some pid => do
              let p ← pfxParse afi
              pure (NLRIEncoding.IP_WITH_PATH_ID (p, pid))
            | none => do
              let p ← pfxParse afi
              pure (NLRIEncoding.IP p)
        let rest ← mpReachLoop fuel afi safi
        pure (route :: rest)) s

/-- MPReachNLRI::parse (src/attributes.rs lines 646-783): AFI, SAFI, next
hop, a reserved byte, then the NLRI block read from a bounded sub-buffer
of length - (5 + next_hop_length) bytes (the u8 sum may overflow, the
u16 subtraction may underflow: both panic).  L2VPN reads one fixed
record. -/
def mpReachParse (length : Nat) : PM MPReachNLRI := do
  let afi ← afiTryFrom (← ru16)
  let safi ← safiTryFromM (← ru8)
  let nhLen ← ru8
  let nextHop ← rexact nhLen
  let _reserved ← ru8
  if 5 + nhLen > 255 then pcrash
  else do
    let size ← subChk length (5 + nhLen)
    let buffer ← rexact size
    let routes ←
      match afi with
      | .IPV4 | .IPV6 => onBuf (mpReachLoop (size + 1) afi safi) buffer
      | .L2VPN =>
        onBuf (do
          let _len ← ru16
          let rd ← ru64
          let veId ← ru16
          let lbo ← ru16
          let lbs ← ru16
          let lbase ← ru24
          pure [NLRIEncoding.L2VPN (rd, veId, lbo, lbs, lbase)]) buffer
    return ⟨afi, safi, nextHop, routes⟩

/-- The MP_UNREACH_NLRI route loop (src/attributes.rs lines 815-892):
every iteration first runs ADD-PATH detection, then decodes one record
for the SAFI; the flowspec SAFIs hit unimplemented! and panic. -/
def mpUnreachLoop : Nat → AFI → SAFI → PM (List NLRIEncoding)
  | 0, _, _ => pcrash
  | fuel + 1, afi, safi => fun s =>
    match s with
    | [] => .ok [] []
    | _ :: _ =>
      (do
        let isAP ← detectHere 255
        let pathId ← if isAP then do pure (some (← ru32)) else pure none
        let route ←
          match safi with
          | .Mpls => do
            let (_, p) ← mplsRecord afi
            match pathId with
            | some pid => pure (NLRIEncoding.IP_MPLS_WITH_PATH_ID (p, 0, pid))
            | none => pure (NLRIEncoding.IP_MPLS (p, 0))
          | .MplsVpn => do
            let (rd, p) ← mplsVpnRecord afi
            pure (NLRIEncoding.IP_VPN_MPLS (rd, p, 0))
          | .Flowspec => pcrash
          | .FlowspecVPN => pcrash
          | _ => do
            match pathId with
            | some pid => do
              let p ← pfxParse afi
              pure (NLRIEncoding.IP_WITH_PATH_ID (p, pid))
            | none => do
              let p ← pfxParse afi
              pure (NLRIEncoding.IP p)
        let rest ← mpUnreachLoop fuel afi safi
        pure (route :: rest)) s

/-- MPUnreachNLRI::parse (src/attributes.rs lines 799-899): AFI, SAFI,
then the withdrawn NLRI block read from a bounded sub-buffer of
length - 3 bytes (u16 underflow panics). -/
def mpUnreachParse (length : Nat) : PM MPUnreachNLRI := do
  let afi ← afiTryFrom (← ru16)
  let safi ← safiTryFromM (← ru8)
  let size ← subChk length 3
  let buffer ← rexact size
  let routes ← onBuf (mpUnreachLoop (size + 1) afi safi) buffer
  return ⟨afi, safi, routes⟩

/-!  ## PathAttribute::parse (src/attributes.rs lines 163-373)

The parser reads the framing (flags, type code, then a 1-byte length
when flags bit 4 is clear and a 2-byte length otherwise) and dispatches
on the type code directly on the enclosing stream: no bound is placed on
the type-specific decoder, which reads whatever its own shape dictates;
only the unknown-type, CONNECTOR, ENTROPY_LABEL_CAPABILITY and ATTR_SET
arms consume exactly the declared length (they read it into a buffer).

The ATTR_SET arm re-enters the parser on a sub-buffer, swallowing inner
errors and continuing at the position where the failed inner parse
stopped; inner panics unwind.  Fuel decreases across that mutual
recursion; every inner parse consumes at least one byte of the finite
sub-buffer, so fuel of stream length plus one is never exhausted. -/

/-- Read count (u32, u32, u32) triples (the LARGE_COMMUNITY loop). -/
def readTriples : Nat → PM (List (Nat × Nat × Nat))
  | 0 => pure []
  | count + 1 => do
    let a ← ru32
    let b ← ru32
    let c ← ru32
    let rest ← readTriples count
    pure ((a, b, c) :: rest)

mutual

/-- PathAttribute::parse (src/attributes.rs lines 177-373). -/
def pathAttrParse : Nat → PM PathAttribute
  | 0 => pcrash
  | fuel + 1 => do
    let flags ← ru8
    let code ← ru8
    let length ← if flags &&& 16 = 0 then ru8 else ru16
    match code with
    | 1 => do pure (PathAttribute.ORIGIN (← originParse))
    | 2 => do pure (PathAttribute.AS_PATH (← asPathParse length))
    | 3 =>
      if length = 4 then do pure (PathAttribute.NEXT_HOP (.V4 (← ru32)))
      else do pure (PathAttribute.NEXT_HOP (.V6 (← ru128)))
    | 4 => do pure (PathAttribute.MULTI_EXIT_DISC (← ru32))
    | 5 => do pure (PathAttribute.LOCAL_PREF (← ru32))
    | 6 => pure PathAttribute.ATOMIC_AGGREGATOR
    | 7 => do
      let asn ← if length = 6 then ru16 else ru32
      let ip ← ru32
      pure (PathAttribute.AGGREGATOR (asn, ip))
    | 8 => do pure (PathAttribute.COMMUNITY (← readVals 4 (length / 4)))
    | 9 => do pure (PathAttribute.ORIGINATOR_ID (← ru32))
    | 10 => do pure (PathAttribute.CLUSTER_LIST (← readVals 4 (length / 4)))
    | 11 => do
      let a ← ru16
      let d ← ru32
      pure (PathAttribute.DPA (a, d))
    | 14 => do pure (PathAttribute.MP_REACH_NLRI (← mpReachParse length))
    | 15 => do pure (PathAttribute.MP_UNREACH_NLRI (← mpUnreachParse length))
    | 16 => do pure (PathAttribute.EXTENDED_COMMUNITIES (← readVals 8 (length / 8)))
    | 17 => do pure (PathAttribute.AS4_PATH (← asPathParse length))
    | 18 => do
      let asn ← ru32
      let ip ← ru32
      pure (PathAttribute.AS4_AGGREGATOR (asn, ip))
    | 20 => do
      let buf ← rexact length
      onBuf (do
        let _ ← ru16
        let _ ← ru64
        pure (PathAttribute.CONNECTOR (← ru32))) buf
    | 21 => do
      let limit ← ru8
      let asn ← ru32
      pure (PathAttribute.AS_PATHLIMIT (limit, asn))
    | 22 => do
      let fl ← ru8
      let label ← ru32
      let idLen ← subChk length 4
      let ident ← rexact idLen
      pure (PathAttribute.PMSI_TUNNEL (fl, label, ident))
    | 23 => do
      let tunnelType ← ru16
      let innerLen ← ru16
      let v ← rexact innerLen
      pure (PathAttribute.TUNNEL_ENCAPSULATION (tunnelType, v))
    | 25 => do
      let transitive ← ru8
      let subtype ← ru8
      let g ← ru128
      let l ← ru16
      pure (PathAttribute.IPV6_SPECIFIC_EXTENDED_COMMUNITY (transitive, subtype, g, l))
    | 26 => do
      let aigpType ← ru8
      let innerLen ← ru16
      let valLen ← subChk innerLen 3
      let v ← rexact valLen
      pure (PathAttribute.AIGP (aigpType, v))
    | 28 => do
      let _ ← rexact length
      pure PathAttribute.ENTROPY_LABEL_CAPABILITY
    | 32 => do pure (PathAttribute.LARGE_COMMUNITY (← readTriples (length / 12)))
    | 128 => do
      let asn ← ru32
      let bufLen ← subChk length 4
      let buffer ← rexact bufLen
      fun s =>
        match attrSetLoop fuel buffer with
        | .ok attrs _ => .ok (PathAttribute.ATTR_SET (asn, attrs)) s
        | .err e _ => .err e s
        | .crash => .crash
    | _ => do
      let _ ← rexact length
      perr .other

/-- The ATTR_SET inner loop (src/attributes.rs lines 352-359): parse
attributes from the sub-buffer until it is exhausted, pushing successes
and skipping (printing) errors; a panic unwinds. -/
def attrSetLoop : Nat → List Nat → PRes (List PathAttribute)
  | 0, _ => .crash
  | _ + 1, [] => .ok [] []
  | fuel + 1, b :: bs =>
    match pathAttrParse fuel (b :: bs) with
    | .ok a s' =>
      (match attrSetLoop fuel s' with
        | .ok attrs r => .ok (a :: attrs) r
        | .err e r => .err e r
        | .crash => .crash)
    | .err _ s' => attrSetLoop fuel s'
    | .crash => .crash

end

/-!  ## Theorems for claims C1 and C2 -/

/-- C1: the framing claim fails on PathAttribute::parse of
src/attributes.rs.  An ORIGIN attribute with flags 0x40, declared length
2 and body bytes 00 63 consumes only one body byte: the parse succeeds
with remainder [0x63], whereas consuming the framing plus the declared
length would leave the remainder empty (drop 5 of the input).  The
excess declared byte is not discarded and would be parsed as part of the
next attribute. -/
theorem c1_counterexample :
    pathAttrParse 6 [0x40, 1, 2, 0, 0x63] =
      .ok (PathAttribute.ORIGIN Origin.IGP) [0x63] ∧
    ([0x63] : List Nat) ≠ List.drop (3 + 2) [0x40, 1, 2, 0, 0x63] := by
  exact ⟨rfl, by decide⟩

/-- C1 (amended): PathAttribute::parse in src/attributes.rs consumes the
framing bytes (flags, type code, and a 1-byte length when flags bit 4 is
clear) and then dispatches the type-specific decoder on the unbounded
stream: the declared length neither bounds the decoder nor is topped up
afterwards.  For an ORIGIN attribute the parse consumes exactly one body
byte and leaves the rest of the stream untouched, whatever the declared
length says.  (The bounded-and-discarded behaviour the claim describes
matches the revised parser in src/update/attributes.rs, which wraps the
decoder in a counting stream; it is not the parser at the cited
lines.) -/
theorem c1_theorem (fuel L b : Nat) (rest : List Nat) (hb : b < 3) :
    ∃ o, pathAttrParse (fuel + 1) (0x40 :: 1 :: L :: b :: rest) =
      .ok (PathAttribute.ORIGIN o) rest := by
  interval_cases b
  · exact ⟨.IGP, rfl⟩
  · exact ⟨.EGP, rfl⟩
  · exact ⟨.INCOMPLETE, rfl⟩

/-- C1 witness: the theorem applied at declared length 200 with an empty
tail: the ORIGIN decoder still reads exactly one body byte. -/
theorem c1_witness :
    (2 : Nat) < 3 ∧
    ∃ o, pathAttrParse 1 [0x40, 1, 200, 2, 7] =
      .ok (PathAttribute.ORIGIN o) [7] :=
  ⟨by decide, c1_theorem 0 200 2 [7] (by decide)⟩

/-- C2: the codec is not panic-free at the cited code.  A NOTIFICATION
whose header length field is 20 drives Notification::parse (src/lib.rs
line 1051) into the underflowing subtraction header.length - 21, and an
AIGP attribute with declared length 3 and inner length field 0 drives
PathAttribute::parse (src/attributes.rs line 322) into the underflowing
subtraction length - 3: both abort instead of returning a typed error,
contradicting the parser's own doc comment ("This function does not
panic"). -/
theorem c2_theorem :
    notifLibParse ⟨List.replicate 16 255, 20, 3⟩ [1, 1] = .crash ∧
    pathAttrParse 7 [0x80, 26, 3, 0, 0, 0] = .crash :=
  ⟨rfl, rfl⟩

/-!  ## Update::normalize (src/lib.rs lines 763-925, identical in
src/update/mod.rs lines 19-223) -/

/-- A BGP UPDATE message. -/
structure Update : Type where
  withdrawnRoutes : List NLRIEncoding
  attributes : List PathAttribute
  announcedRoutes : List NLRIEncoding

/-- Update::get (src/lib.rs lines 879-887): first attribute with the
given identifier, in insertion order. -/
def updateGet (u : Update) (i : Identifier) : Option PathAttribute :=
  u.attributes.find? (fun a => attrId a == i)

/-- The MP_REACH_NLRI route extraction of normalize (src/lib.rs lines
908-911): Some announced routes when the first MP_REACH_NLRI attribute
matches, None otherwise. -/
def reachRoutesOpt (o : Option PathAttribute) : Option (List NLRIEncoding) :=
  match o with
  | some (PathAttribute.MP_REACH_NLRI r) => some r.announcedRoutes
  | _ => none

/-- The MP_UNREACH_NLRI route extraction of normalize (src/lib.rs lines
917-920). -/
def unreachRoutesOpt (o : Option PathAttribute) : Option (List NLRIEncoding) :=
  match o with
  | some (PathAttribute.MP_UNREACH_NLRI r) => some r.withdrawnRoutes
  | _ => none

/-- Update::normalize (src/lib.rs lines 905-925): extend announced_routes
with the routes of the first MP_REACH_NLRI attribute, then extend
withdrawn_routes with the routes of the first MP_UNREACH_NLRI attribute;
the attribute list is left in place. -/
def updateNormalize (u : Update) : Update :=
  let u1 :=
    match reachRoutesOpt (updateGet u .MP_REACH_NLRI) with
    | some routes => { u with announcedRoutes := u.announcedRoutes ++ routes }
    | none => u
  match unreachRoutesOpt (updateGet u1 .MP_UNREACH_NLRI) with
  | some routes => { u1 with withdrawnRoutes := u1.withdrawnRoutes ++ routes }
  | none => u1

/-- The routes of the first MP_REACH_NLRI attribute (empty when there is
none). -/
def mpReachRoutesOf (u : Update) : List NLRIEncoding :=
  (reachRoutesOpt (updateGet u .MP_REACH_NLRI)).getD []

/-- The routes of the first MP_UNREACH_NLRI attribute (empty when there
is none). -/
def mpUnreachRoutesOf (u : Update) : List NLRIEncoding :=
  (unreachRoutesOpt (updateGet u .MP_UNREACH_NLRI)).getD []

theorem updateNormalize_parts (u : Update) :
    updateNormalize u = ⟨u.withdrawnRoutes ++ mpUnreachRoutesOf u,
      u.attributes, u.announcedRoutes ++ mpReachRoutesOf u⟩ := by
  unfold updateNormalize mpReachRoutesOf mpUnreachRoutesOf updateGet
  dsimp only
  rcases h1 : reachRoutesOpt (u.attributes.find? (fun a => attrId a == .MP_REACH_NLRI)) with - | r <;>
    rcases h2 : unreachRoutesOpt (u.attributes.find? (fun a => attrId a == .MP_UNREACH_NLRI)) with - | w <;>
    simp

/-- C6: normalize is not idempotent.  On an Update carrying one
MP_REACH_NLRI attribute with one route, the first call appends the
route; the second call finds the attribute still present and appends the
route again, so the announced list after two calls differs from the
list after one. -/
theorem c6_counterexample :
    (updateNormalize (updateNormalize
      ⟨[], [PathAttribute.MP_REACH_NLRI ⟨AFI.IPV4, SAFI.Unicast, [1, 1, 1, 1],
        [NLRIEncoding.IP ⟨AFI.IPV4, 32, [5, 5, 5, 5]⟩]⟩], []⟩)).announcedRoutes ≠
    (updateNormalize
      ⟨[], [PathAttribute.MP_REACH_NLRI ⟨AFI.IPV4, SAFI.Unicast, [1, 1, 1, 1],
        [NLRIEncoding.IP ⟨AFI.IPV4, 32, [5, 5, 5, 5]⟩]⟩], []⟩).announcedRoutes := by
  decide

/-- C6 (amended): normalize appends the routes carried in the first
MP_REACH_NLRI attribute to announced_routes and those of the first
MP_UNREACH_NLRI attribute to withdrawn_routes, leaving the attribute
list unchanged; it is not idempotent: a second call appends the same
routes a second time (the two lists agree after one and two calls only
when the MP attributes carry no routes). -/
theorem c6_theorem (u : Update) :
    (updateNormalize u).announcedRoutes = u.announcedRoutes ++ mpReachRoutesOf u ∧
    (updateNormalize u).withdrawnRoutes = u.withdrawnRoutes ++ mpUnreachRoutesOf u ∧
    (updateNormalize u).attributes = u.attributes ∧
    (updateNormalize (updateNormalize u)).announcedRoutes =
      u.announcedRoutes ++ mpReachRoutesOf u ++ mpReachRoutesOf u := by
  have hparts := updateNormalize_parts u
  have hattr : (updateNormalize u).attributes = u.attributes := by rw [hparts]
  have hreach : mpReachRoutesOf (updateNormalize u) = mpReachRoutesOf u := by
    unfold mpReachRoutesOf updateGet
    rw [hattr]
  refine ⟨by rw [hparts], by rw [hparts], hattr, ?_⟩
  rw [updateNormalize_parts (updateNormalize u), hreach, hparts]

/-!  ## OPEN parameters and Message::write (src/lib.rs lines 244-1127) -/

/-- Writer outcome: the serialized bytes, a typed error, or a panic
(unimplemented! in Message::write_noheader). -/
inductive WRes : Type where
  | ok : List Nat → WRes
  | err : PErr → WRes
  | crash : WRes
deriving DecidableEq, Repr

/-- AddPathDirection (src/lib.rs lines 321-333). -/
inductive AddPathDirection : Type where
  | ReceivePaths : AddPathDirection
  | SendPaths : AddPathDirection
  | SendReceivePaths : AddPathDirection
deriving DecidableEq, Repr

/-- Wire value of an AddPathDirection. -/
def apdVal : AddPathDirection → Nat
  | .ReceivePaths => 1
  | .SendPaths => 2
  | .SendReceivePaths => 3

/-- Wire value of an AFI. -/
def afiVal : AFI → Nat
  | .IPV4 => 1
  | .IPV6 => 2
  | .L2VPN => 25

/-- Wire value of a SAFI. -/
def safiVal : SAFI → Nat
  | .Unicast => 1
  | .Multicast => 2
  | .Mpls => 4
  | .MplsVpn => 128
  | .Flowspec => 133
  | .FlowspecVPN => 134

/-- OpenCapability (src/lib.rs lines 354-378).  The
OutboundRouteFiltering HashSet is modelled as a list (iteration
order). -/
inductive OpenCapability : Type where
  | MultiProtocol : AFI × SAFI → OpenCapability
  | RouteRefresh : OpenCapability
  | OutboundRouteFiltering : List (AFI × SAFI × Nat × AddPathDirection) → OpenCapability
  | FourByteASN : Nat → OpenCapability
  | AddPath : List (AFI × SAFI × AddPathDirection) → OpenCapability
  | Unknown : Nat → Nat → List Nat → OpenCapability
deriving DecidableEq, Repr

/-- OpenParameter (src/lib.rs lines 539-556). -/
inductive OpenParameter : Type where
  | Capabilities : List OpenCapability → OpenParameter
  | Unknown : Nat → Nat → List Nat → OpenParameter
deriving DecidableEq, Repr

/-- OpenCapability::write (src/lib.rs lines 474-536).  Note that the
OutboundRouteFiltering arm emits no capability code or length bytes (the
source writes only the AFI header of the first entry and the per-entry
pairs), and the AddPath arm fails when 4 times the entry count exceeds
the u8 length byte. -/
def capWrite : OpenCapability → WRes
  | .MultiProtocol (afi, safi) =>
    .ok ([1, 4] ++ be16 (afiVal afi) ++ [0, safiVal safi])
  | .RouteRefresh => .ok [2, 0]
  | .OutboundRouteFiltering orfs =>
    .ok
      (match orfs with
      | [] => []
      | (afi, safi, _, _) :: _ =>
        be16 (afiVal afi) ++ [0, safiVal safi, orfs.length % 256] ++
          orfs.flatMap (fun x => [x.2.2.1 % 256, apdVal x.2.2.2]))
  | .FourByteASN asn => .ok ([65, 4] ++ be32 asn)
  | .AddPath aps =>
    if aps.length * 4 > 255 then .err .other
    else
      .ok ([69, aps.length % 256 * 4 % 256] ++
        aps.flatMap (fun x => be16 (afiVal x.1) ++ [safiVal x.2.1, apdVal x.2.2]))
  | .Unknown code len value => .ok ([code % 256, len % 256] ++ value)

/-- Serialize a capability list left to right, propagating the first
failure. -/
def capsWriteAll : List OpenCapability → WRes
  | [] => .ok []
  | c :: rest =>
    match capWrite c with
    | .ok b =>
      (match capsWriteAll rest with
      | .ok bs => .ok (b ++ bs)
      | e => e)
    | e => e

/-- OpenParameter::write (src/lib.rs lines 596-628): a Capabilities
parameter is type byte 2, the capability bytes' length as u8 (failing
past 255), then the capability bytes. -/
def paramWrite : OpenParameter → WRes
  | .Capabilities caps =>
    (match capsWriteAll caps with
    | .ok bytes =>
      if bytes.length > 255 then .err .other
      else .ok ([2, bytes.length % 256] ++ bytes)
    | e => e)
  | .Unknown pt pl value => .ok ([pt % 256, pl % 256] ++ value)

/-- Serialize a parameter list left to right, propagating the first
failure. -/
def paramsWriteAll : List OpenParameter → WRes
  | [] => .ok []
  | p :: rest =>
    match paramWrite p with
    | .ok b =>
      (match paramsWriteAll rest with
      | .ok bs => .ok (b ++ bs)
      | e => e)
    | e => e

/-- Open message (src/lib.rs lines 244-261). -/
structure Open : Type where
  version : Nat
  peerAsn : Nat
  holdTimer : Nat
  identifier : Nat
  parameters : List OpenParameter
deriving DecidableEq, Repr

/-- Open::write (src/lib.rs lines 295-318): version u8, peer ASN u16,
hold timer u16, identifier u32, then the parameter bytes' length as u8
(failing past 255) and the parameter bytes. -/
def openWrite (o : Open) : WRes :=
  match paramsWriteAll o.parameters with
  | .ok pbytes =>
    if pbytes.length > 255 then .err .other
    else
      .ok ([o.version % 256] ++ be16 o.peerAsn ++ be16 o.holdTimer ++
        be32 o.identifier ++ [pbytes.length % 256] ++ pbytes)
  | e => e

/-- RouteRefresh message (src/lib.rs lines 1063-1068). -/
structure RouteRefresh : Type where
  afi : AFI
  safi : SAFI
deriving DecidableEq, Repr

/-- Message (src/lib.rs lines 225-242). -/
inductive Message : Type where
  | Open : Open → Message
  | Update : Update → Message
  | Notification : Notification → Message
  | KeepAlive : Message
  | RouteRefresh : RouteRefresh → Message

/-- Message::write_noheader (src/lib.rs lines 1093-1101): OPEN messages
delegate to Open::write, KEEPALIVE has an empty body, and the Update,
Notification and RouteRefresh arms are unimplemented! and panic. -/
def writeNoheader : Message → WRes
  | .Open o => openWrite o
  | .Update _ => .crash
  | .Notification _ => .crash
  | .KeepAlive => .ok []
  | .RouteRefresh _ => .crash

/-- The header type code of a Message (src/lib.rs lines 1116-1122). -/
def msgType : Message → Nat
  | .Open _ => 1
  | .Update _ => 2
  | .Notification _ => 3
  | .KeepAlive => 4
  | .RouteRefresh _ => 5

/-- Message::write (src/lib.rs lines 1103-1127): serialize the body once
to measure it, fail when body length + 16 + 2 + 1 exceeds u16::MAX
(65535), otherwise emit the header (all-ones marker, length = body
length + 19, type code) followed by the body. -/
def messageWrite (m : Message) : WRes :=
  match writeNoheader m with
  | .ok body =>
    if body.length + 16 + 2 + 1 > 65535 then .err .other
    else
      .ok (headerWrite ⟨List.replicate 16 255, body.length + 16 + 2 + 1, msgType m⟩
        ++ body)
  | e => e

/-- A serialized OPEN body is at most 265 bytes: the 10 fixed bytes plus
at most 255 parameter bytes (the u8 length guard). -/
theorem openWrite_len {o : Open} {body : List Nat}
    (h : openWrite o = .ok body) : body.length ≤ 265 := by
  unfold openWrite at h
  rcases hp : paramsWriteAll o.parameters with pbytes | e | - <;> rw [hp] at h <;>
    dsimp only at h
  · by_cases hlen : pbytes.length > 255
    · rw [if_pos hlen] at h
      cases h
    · rw [if_neg hlen] at h
      cases h
      simp [be16, be32]
      omega
  · cases h
  · cases h

/-- C4: the claim fails on Message::write.  For a Notification message,
write does not serialize a body and set a length at all: the
write_noheader dispatch is unimplemented! and panics. -/
theorem c4_counterexample :
    messageWrite (Message.Notification ⟨6, 3, []⟩) = WRes.crash := rfl

/-- C4 (amended): whenever Message::write can serialize the body (OPEN
and KEEPALIVE messages; the Update, Notification and RouteRefresh arms
panic as unimplemented), it emits a header whose length field is body
length + 19 followed by the body; the only size guard compares body
length + 19 against u16::MAX (65535), a bound the writable messages
cannot reach (an OPEN body is at most 265 bytes), so no MessageTooLarge
error at the 4096-byte BGP maximum exists in this code. -/
theorem c4_theorem (m : Message) (body : List Nat)
    (h : writeNoheader m = .ok body) :
    messageWrite m =
      .ok (headerWrite ⟨List.replicate 16 255, body.length + 19, msgType m⟩ ++ body) ∧
    body.length + 19 ≤ 65535 := by
  have hlen : body.length ≤ 265 := by
    cases m with
    | Open o => exact openWrite_len h
    | Update u => cases h
    | Notification n => cases h
    | KeepAlive =>
      cases h
      simp
    | RouteRefresh r => cases h
  constructor
  · unfold messageWrite
    rw [h]
    dsimp only
    rw [if_neg (by omega)]
  · omega

/-- C4 witness: the theorem applied to KEEPALIVE, whose encoding is the
19 header bytes ff*16 00 13 04. -/
theorem c4_witness :
    writeNoheader Message.KeepAlive = .ok [] ∧
    messageWrite Message.KeepAlive = .ok (List.replicate 16 255 ++ [0, 19, 4]) := by
  refine ⟨rfl, ?_⟩
  have h := (c4_theorem Message.KeepAlive [] rfl).1
  rw [h]
  rfl
